import Mathlib

/-!
Verification development for the mentorship-matching application.

The repository's visible code is the relational schema (`prisma/schema.prisma`)
and a thin query router (`skillRouter.getSkills`).  The data model below is a
shallow embedding of that schema: each prisma model becomes a structure, each
enum an inductive type, `DateTime` fields become natural-number instants, and
the cuid-generated opaque `String` ids become natural numbers drawn from a
fresh counter carried by the store.  `Json` payloads (`availability`,
`notificationPreferences`, `goals`) are opaque to every operation verified
here and are kept as uninterpreted option fields or routed through explicit
configuration functions.

The matching / suggestion / mentorship core (candidate scorer, suggestion
lifecycle manager, mentorship state machine) has no implementation under the
repository's sources — the schema only models its data.  Those operations are
therefore modelled from the specification, and each such definition carries a
doc comment saying so.
-/

namespace MentorshipApp

/-- Opaque entity identifier: cuid `String` ids are modelled as naturals
allocated from the store's fresh counter. -/
abbrev Id := Nat

/-- Embeds enum `UserRole` of `prisma/schema.prisma`. -/
inductive UserRole where
  | REGULAR
  | ADMIN
  | OWNER
deriving DecidableEq, Repr

/-- Embeds enum `MentorshipStatus` of `prisma/schema.prisma`. -/
inductive MentorshipStatus where
  | PENDING
  | ACTIVE
  | COMPLETED
  | CANCELED
deriving DecidableEq, Repr

/-- Embeds enum `SuggestionStatus` of `prisma/schema.prisma`. -/
inductive SuggestionStatus where
  | PENDING
  | ACCEPTED
  | DECLINED
deriving DecidableEq, Repr

/-- Embeds model `Skill` of `prisma/schema.prisma`: `id Int @id`, `name`,
`slug` (the schema declares no uniqueness constraint on `slug`; the only key
is `id`).  The two many-to-many relations with `User` are stored on the user
side as skill-id lists. -/
structure Skill where
  id : Int
  name : String
  slug : String
deriving DecidableEq, Repr

/-- Embeds model `User` of `prisma/schema.prisma` (profile scalars plus the
two skill relations; NextAuth account/session rows are out of scope).
`availability` and `notificationPreferences` are opaque `Json?` payloads. -/
structure User where
  id : Id
  name : Option String := none
  email : Option String := none
  title : Option String := none
  location : Option String := none
  in_person : Option Bool := none
  about : Option String := none
  role : UserRole := .REGULAR
  availability : Option String := none
  notificationPreferences : Option String := none
  onboardingCompletedAt : Option Nat := none
  mentor_skills : List Int := []
  mentee_skills : List Int := []
deriving DecidableEq, Repr

/-- Embeds model `Mentorship` of `prisma/schema.prisma`. -/
structure Mentorship where
  id : Id
  mentorId : Id
  menteeId : Id
  startDate : Nat
  endDate : Option Nat := none
  status : MentorshipStatus := .PENDING
  goals : Option String := none
  notes : Option String := none
deriving DecidableEq, Repr

/-- Embeds model `Message` of `prisma/schema.prisma`: both parent references
are declared optional (`mentorshipId String?`, `conversationId String?`). -/
structure Message where
  id : Id
  mentorshipId : Option Id
  conversationId : Option Id
  senderId : Id
  receiverId : Id
  content : String
  sentAt : Nat
deriving DecidableEq, Repr

/-- Embeds model `Suggestion` of `prisma/schema.prisma`. -/
structure Suggestion where
  id : Id
  mentorId : Id
  menteeId : Id
  status : SuggestionStatus := .PENDING
deriving DecidableEq, Repr

/-- Embeds model `Conversation` of `prisma/schema.prisma`. -/
structure Conversation where
  id : Id
  participant1Id : Id
  participant2Id : Id
deriving DecidableEq, Repr

/-- The relational store: one list per table, the fresh-id counter backing
cuid generation, and the server clock backing `now()` timestamps. -/
structure Store where
  users : List User
  skills : List Skill
  suggestions : List Suggestion
  mentorships : List Mentorship
  messages : List Message
  conversations : List Conversation
  nextId : Id
  now : Nat
deriving Repr

/-- Error taxonomy of the core (spec section 7). -/
inductive CoreError where
  | NotFoundError
  | AuthorizationError
  | InvalidStateError
  | ConflictError
deriving DecidableEq, Repr

/-- Response to a suggestion. -/
inductive Decision where
  | Accept
  | Decline
deriving DecidableEq, Repr

/-- Role a seeker plays when asking for candidates. -/
inductive Role where
  | Mentor
  | Mentee
deriving DecidableEq, Repr

/-- Modelled from the spec: query used by the suggestion lifecycle manager —
does a PENDING suggestion already exist for the ordered `(mentor, mentee)`
pair? -/
def hasPendingSuggestion (st : Store) (mentorId menteeId : Id) : Bool :=
  st.suggestions.any fun s =>
    s.status == .PENDING && s.mentorId == mentorId && s.menteeId == menteeId

/-- Modelled from the spec: does an ACTIVE or PENDING mentorship already
exist for the ordered `(mentor, mentee)` pair? -/
def hasBlockingMentorship (st : Store) (mentorId menteeId : Id) : Bool :=
  st.mentorships.any fun m =>
    (m.status == .ACTIVE || m.status == .PENDING)
      && m.mentorId == mentorId && m.menteeId == menteeId

/-- Modelled from the spec: `createSuggestion(mentor, mentee)` of the
suggestion lifecycle manager (absent from the sources).  Fails with
`ConflictError` if a PENDING suggestion already exists for this ordered pair,
or if an ACTIVE/PENDING mentorship already exists for the pair; otherwise
inserts a new PENDING suggestion. -/
def createSuggestion (st : Store) (mentorId menteeId : Id) :
    Except CoreError Store :=
  if hasPendingSuggestion st mentorId menteeId
      || hasBlockingMentorship st mentorId menteeId then
    .error .ConflictError
  else
    .ok { st with
      suggestions :=
        { id := st.nextId, mentorId := mentorId, menteeId := menteeId,
          status := .PENDING } :: st.suggestions,
      nextId := st.nextId + 1 }

/-- Modelled from the spec: `respond(suggestionId, actingUser, decision)` of
the suggestion lifecycle manager (absent from the sources).  `NotFoundError`
if the suggestion is absent, `AuthorizationError` if the actor is neither its
mentor nor its mentee, `InvalidStateError` if it is not PENDING; on Accept it
atomically sets status to ACCEPTED and creates a mentorship with status
PENDING and `startDate = now`; on Decline it sets status to DECLINED. -/
def respond (st : Store) (sid : Id) (actingUserId : Id) (d : Decision) :
    Except CoreError Store :=
  match st.suggestions.find? (fun s => s.id == sid) with
  | none => .error .NotFoundError
  | some s =>
    if actingUserId ≠ s.mentorId ∧ actingUserId ≠ s.menteeId then
      .error .AuthorizationError
    else if s.status ≠ .PENDING then
      .error .InvalidStateError
    else
      match d with
      | .Decline =>
        .ok { st with
          suggestions := st.suggestions.map fun t =>
            if t.id == sid then { t with status := .DECLINED } else t }
      | .Accept =>
        .ok { st with
          suggestions := st.suggestions.map fun t =>
            if t.id == sid then { t with status := .ACCEPTED } else t,
          mentorships :=
            { id := st.nextId, mentorId := s.mentorId, menteeId := s.menteeId,
              startDate := st.now, endDate := none, status := .PENDING,
              goals := none, notes := none } :: st.mentorships,
          nextId := st.nextId + 1 }

/-- Modelled from the spec: replace the mentorship row with the given id by its image under `f`. -/
def updateMentorship (st : Store) (mid : Id) (f : Mentorship → Mentorship) :
    Store :=
  { st with mentorships := st.mentorships.map fun m =>
      if m.id == mid then f m else m }

/-- Modelled from the spec: `activate(mentorshipId)` of the mentorship state
machine (absent from the sources).  Valid only from PENDING; an invalid
transition fails with `InvalidStateError` and causes no mutation. -/
def activate (st : Store) (mid : Id) : Except CoreError Store :=
  match st.mentorships.find? (fun m => m.id == mid) with
  | none => .error .NotFoundError
  | some m =>
    if m.status = .PENDING then
      .ok (updateMentorship st mid fun x => { x with status := .ACTIVE })
    else
      .error .InvalidStateError

/-- Modelled from the spec: `complete(mentorshipId, notes?)` of the
mentorship state machine (absent from the sources).  Valid only from ACTIVE;
sets `endDate = now`. -/
def complete (st : Store) (mid : Id) (notes : Option String) :
    Except CoreError Store :=
  match st.mentorships.find? (fun m => m.id == mid) with
  | none => .error .NotFoundError
  | some m =>
    if m.status = .ACTIVE then
      .ok (updateMentorship st mid fun x =>
        { x with status := .COMPLETED, endDate := some st.now,
                 notes := notes })
    else
      .error .InvalidStateError

/-- Modelled from the spec: `cancel(mentorshipId, reason?)` of the mentorship
state machine (absent from the sources).  Valid from PENDING or ACTIVE; sets
`endDate = now` (the optional reason is recorded in `notes`). -/
def cancel (st : Store) (mid : Id) (reason : Option String) :
    Except CoreError Store :=
  match st.mentorships.find? (fun m => m.id == mid) with
  | none => .error .NotFoundError
  | some m =>
    if m.status = .PENDING ∨ m.status = .ACTIVE then
      .ok (updateMentorship st mid fun x =>
        { x with status := .CANCELED, endDate := some st.now,
                 notes := reason })
    else
      .error .InvalidStateError

/-- Modelled from the spec: appending a message to a mentorship (absent from
the sources).  Allowed only while the mentorship's status is PENDING or
ACTIVE; otherwise fails with `InvalidStateError`. -/
def appendMessage (st : Store) (mid : Id) (senderId receiverId : Id)
    (content : String) : Except CoreError Store :=
  match st.mentorships.find? (fun m => m.id == mid) with
  | none => .error .NotFoundError
  | some m =>
    if m.status = .PENDING ∨ m.status = .ACTIVE then
      .ok { st with
        messages :=
          { id := st.nextId, mentorshipId := some mid, conversationId := none,
            senderId := senderId, receiverId := receiverId,
            content := content, sentAt := st.now } :: st.messages,
        nextId := st.nextId + 1 }
    else
      .error .InvalidStateError

/-- Modelled from the spec: scoring configuration — the four non-negative
weights, the normalized availability-conflict measure over the opaque
availability payloads, and the batch size K. -/
structure ScoringConfig where
  w1 : ℚ
  w2 : ℚ
  w3 : ℚ
  w4 : ℚ
  availabilityConflict : User → User → ℚ
  K : Nat

/-- Modelled from the spec: skills a seeker of the given role wants covered: a mentee's
`mentee_skills`, a mentor's `mentor_skills`. -/
def desiredSkills (u : User) : Role → List Int
  | .Mentee => u.mentee_skills
  | .Mentor => u.mentor_skills

/-- Modelled from the spec: skills a candidate offers to a seeker of the given role: mentors offer
`mentor_skills` to mentees and vice versa. -/
def offeredSkills (u : User) : Role → List Int
  | .Mentee => u.mentor_skills
  | .Mentor => u.mentee_skills

/-- Modelled from the spec: size of the intersection between two skill-id lists. -/
def skillOverlapCount (desired offered : List Int) : Nat :=
  (desired.dedup.filter fun k => offered.contains k).length

/-- Modelled from the spec: boolean indicator — both users declare a location and they coincide. -/
def locationMatch (a b : User) : Bool :=
  match a.location, b.location with
  | some x, some y => x == y
  | _, _ => false

/-- Modelled from the spec: boolean indicator — both users declare an in-person preference and they
coincide. -/
def inPersonMatch (a b : User) : Bool :=
  match a.in_person, b.in_person with
  | some x, some y => x == y
  | _, _ => false

/-- Modelled from the spec: the ordered `(mentor, mentee)` pair a seeker/candidate combination
induces: a mentee-seeker pairs with a mentor candidate and conversely. -/
def pairKey (role : Role) (seekerId candId : Id) : Id × Id :=
  match role with
  | .Mentee => (candId, seekerId)
  | .Mentor => (seekerId, candId)

/-- Modelled from the spec: the candidate scorer's scoring formula
`w1 * overlap + w2 * locationMatch + w3 * inPersonMatch
  - w4 * availabilityConflict`. -/
def candidateScore (cfg : ScoringConfig) (seeker u : User) (role : Role) : ℚ :=
  cfg.w1 * (skillOverlapCount (desiredSkills seeker role)
              (offeredSkills u role) : ℚ)
    + cfg.w2 * (if locationMatch seeker u then 1 else 0)
    + cfg.w3 * (if inPersonMatch seeker u then 1 else 0)
    - cfg.w4 * cfg.availabilityConflict seeker u

/-- Modelled from the spec: comparison used to order scored candidates — descending by score, ties
broken by candidate id ascending. -/
def scoreLE (a b : User × ℚ) : Bool :=
  decide (b.2 < a.2 ∨ (a.2 = b.2 ∧ a.1.id ≤ b.1.id))

/-- Modelled from the spec: `scoreCandidates(seeker, role)` of the candidate
scorer (absent from the sources).  Considers every other user with onboarding
complete and no ACTIVE/PENDING mentorship with the seeker, excludes
candidates with zero skill overlap entirely, scores the rest, and sorts
descending by score with ties broken by candidate id ascending. -/
def scoreCandidates (cfg : ScoringConfig) (st : Store) (seeker : User)
    (role : Role) : List (User × ℚ) :=
  let pool := st.users.filter fun u =>
    u.id != seeker.id
      && u.onboardingCompletedAt.isSome
      && !(hasBlockingMentorship st (pairKey role seeker.id u.id).1
            (pairKey role seeker.id u.id).2)
      && (skillOverlapCount (desiredSkills seeker role)
            (offeredSkills u role) != 0)
  (pool.map fun u => (u, candidateScore cfg seeker u role)).mergeSort scoreLE

/-- Modelled from the spec: `generateSuggestionsForUser` of the suggestion
lifecycle manager (absent from the sources).  Takes the top-K scored
candidates not already covered by a PENDING suggestion and calls
`createSuggestion` for each, skipping individual conflicts rather than
failing the whole batch. -/
def generateSuggestionsForUser (cfg : ScoringConfig) (st : Store)
    (seeker : User) (role : Role) : Store :=
  let cands := ((scoreCandidates cfg st seeker role).filter fun c =>
    !(hasPendingSuggestion st (pairKey role seeker.id c.1.id).1
        (pairKey role seeker.id c.1.id).2)).take cfg.K
  cands.foldl (fun acc c =>
    match createSuggestion acc (pairKey role seeker.id c.1.id).1
        (pairKey role seeker.id c.1.id).2 with
    | .ok st' => st'
    | .error _ => acc) st

/-- Embeds prisma's `skill.findMany` as used by the skill router: with no
filter argument it returns the whole table, otherwise the filtered rows. -/
def skillFindMany (st : Store) (wherePred : Option (Skill → Bool)) :
    List Skill :=
  match wherePred with
  | none => st.skills
  | some p => st.skills.filter p

/-- Embeds `skillRouter.getSkills`: a query procedure returning
`ctx.db.skill.findMany()`; being a query it threads the store through
unchanged. -/
def getSkills (st : Store) : List Skill × Store :=
  (skillFindMany st none, st)

/-- Constraints the prisma schema itself declares on the `Skill` table:
`id Int @id` is the primary key; no other field of `Skill` carries a
uniqueness attribute. -/
def skillTableOk (skills : List Skill) : Prop :=
  skills.Pairwise fun a b => a.id ≠ b.id

/-- The property the spec asserts of `slug`: no two distinct skill rows share
a slug. -/
def slugUnique (skills : List Skill) : Prop :=
  skills.Pairwise fun a b => a.slug ≠ b.slug

/-- Constraints the prisma schema itself declares on a `Message` row: the
four declared relations must resolve (`senderId`/`receiverId` reference
users; `mentorshipId`/`conversationId`, each declared optional, reference a
mentorship / conversation when present).  The schema states no exclusivity
between the two optional parents. -/
def messageRowOk (st : Store) (msg : Message) : Prop :=
  (∃ u ∈ st.users, u.id = msg.senderId)
    ∧ (∃ u ∈ st.users, u.id = msg.receiverId)
    ∧ (∀ mid, msg.mentorshipId = some mid →
        ∃ m ∈ st.mentorships, m.id = mid)
    ∧ (∀ cid, msg.conversationId = some cid →
        ∃ c ∈ st.conversations, c.id = cid)

/-- The property the spec asserts of `Message`: exactly one of the two
parent references is present. -/
def exactlyOneParent (msg : Message) : Prop :=
  (msg.mentorshipId ≠ none ∧ msg.conversationId = none)
    ∨ (msg.mentorshipId = none ∧ msg.conversationId ≠ none)

/-- An initial store: users, skills and conversations are seeded by
collaborators outside the core (registration, the administrative skill
process), while the tables the core itself populates — suggestions,
mentorships, messages — start empty. -/
def Store.init (users : List User) (skills : List Skill)
    (conversations : List Conversation) (now : Nat) : Store :=
  { users := users, skills := skills, suggestions := [], mentorships := [],
    messages := [], conversations := conversations, nextId := 0, now := now }

/-- States reachable through the core: an initial store whose seeded skill
catalog satisfies the schema-declared constraints, closed under every
operation of the core and under clock advance. -/
inductive Reachable (cfg : ScoringConfig) : Store → Prop where
  | init (users : List User) (skills : List Skill)
      (conversations : List Conversation) (now : Nat)
      (hskills : skillTableOk skills) :
      Reachable cfg (Store.init users skills conversations now)
  | createSuggestion {st st' : Store} {m e : Id} (h : Reachable cfg st)
      (hop : createSuggestion st m e = .ok st') : Reachable cfg st'
  | respond {st st' : Store} {sid u : Id} {d : Decision} (h : Reachable cfg st)
      (hop : respond st sid u d = .ok st') : Reachable cfg st'
  | activate {st st' : Store} {mid : Id} (h : Reachable cfg st)
      (hop : activate st mid = .ok st') : Reachable cfg st'
  | complete {st st' : Store} {mid : Id} {notes : Option String}
      (h : Reachable cfg st)
      (hop : complete st mid notes = .ok st') : Reachable cfg st'
  | cancel {st st' : Store} {mid : Id} {reason : Option String}
      (h : Reachable cfg st)
      (hop : cancel st mid reason = .ok st') : Reachable cfg st'
  | appendMessage {st st' : Store} {mid s r : Id} {content : String}
      (h : Reachable cfg st)
      (hop : appendMessage st mid s r content = .ok st') : Reachable cfg st'
  | generate {st : Store} {seeker : User} {role : Role} (h : Reachable cfg st) :
      Reachable cfg (generateSuggestionsForUser cfg st seeker role)
  | tick {st : Store} (t : Nat) (h : Reachable cfg st) :
      Reachable cfg { st with now := t }

/-- At most one PENDING suggestion per ordered `(mentor, mentee)` pair. -/
def pendingPairUnique (suggestions : List Suggestion) : Prop :=
  suggestions.Pairwise fun a b =>
    ¬(a.status = .PENDING ∧ b.status = .PENDING
        ∧ a.mentorId = b.mentorId ∧ a.menteeId = b.menteeId)

/-- The two directions of suggestion/mentorship atomicity: every ACCEPTED
suggestion has a mentorship for its pair, and every mentorship stems from an
ACCEPTED suggestion for its pair. -/
def suggestionMentorshipMatched (st : Store) : Prop :=
  (∀ s ∈ st.suggestions, s.status = .ACCEPTED →
      ∃ m ∈ st.mentorships, m.mentorId = s.mentorId ∧ m.menteeId = s.menteeId)
    ∧ (∀ m ∈ st.mentorships,
        ∃ s ∈ st.suggestions, s.status = .ACCEPTED
          ∧ s.mentorId = m.mentorId ∧ s.menteeId = m.menteeId)

/-- The inductive invariant carried through every reachable state. -/
structure Inv (st : Store) : Prop where
  suggIdsBelow : ∀ s ∈ st.suggestions, s.id < st.nextId
  suggIdsNodup : st.suggestions.Pairwise fun a b => a.id ≠ b.id
  pendingUnique : pendingPairUnique st.suggestions
  matched : suggestionMentorshipMatched st
  msgParents : ∀ msg ∈ st.messages, exactlyOneParent msg
  skillsOk : skillTableOk st.skills

/-- Number of suggestion rows stored for an ordered `(mentor, mentee)` pair,
any status. -/
def pairRowCount (st : Store) (m e : Id) : Nat :=
  (st.suggestions.filter fun s => s.mentorId == m && s.menteeId == e).length

/-- Number of messages attached to a given mentorship. -/
def messageCount (st : Store) (mid : Id) : Nat :=
  (st.messages.filter fun msg => msg.mentorshipId == some mid).length

/-- The ordering the candidate scorer promises: descending by score, ties
broken by candidate id ascending. -/
def scoredOrder (a b : User × ℚ) : Prop :=
  b.2 < a.2 ∨ (a.2 = b.2 ∧ a.1.id ≤ b.1.id)

/-- A concrete scoring configuration used for witnesses. -/
def demoCfg : ScoringConfig :=
  { w1 := 1, w2 := 1, w3 := 1, w4 := 1,
    availabilityConflict := fun _ _ => 0, K := 3 }

/-- Empty initial store used for witnesses. -/
def demoStore0 : Store := Store.init [] [] [] 5

/-- State `demoStore0` after `createSuggestion 10 20`. -/
def demoStore1 : Store :=
  { users := [], skills := [], suggestions := [⟨0, 10, 20, .PENDING⟩],
    mentorships := [], messages := [], conversations := [], nextId := 1,
    now := 5 }

/-- State `demoStore1` after `respond 0 10 Accept`. -/
def demoStore2 : Store :=
  { users := [], skills := [], suggestions := [⟨0, 10, 20, .ACCEPTED⟩],
    mentorships := [⟨1, 10, 20, 5, none, .PENDING, none, none⟩],
    messages := [], conversations := [], nextId := 2, now := 5 }

/-- State `demoStore2` after appending one message to mentorship 1. -/
def demoStore3 : Store :=
  { users := [], skills := [], suggestions := [⟨0, 10, 20, .ACCEPTED⟩],
    mentorships := [⟨1, 10, 20, 5, none, .PENDING, none, none⟩],
    messages := [⟨2, some 1, none, 10, 20, "hi", 5⟩], conversations := [],
    nextId := 3, now := 5 }

/-- A mentor offering skill 100, onboarded. -/
def demoMentor : User :=
  { id := 2, onboardingCompletedAt := some 0, mentor_skills := [100] }

/-- A mentee seeking skill 100, onboarded. -/
def demoSeeker : User :=
  { id := 1, onboardingCompletedAt := some 0, mentee_skills := [100] }

/-- Store holding only `demoMentor`, used for scoring witnesses. -/
def demoMatchStore : Store :=
  { users := [demoMentor], skills := [], suggestions := [], mentorships := [],
    messages := [], conversations := [], nextId := 3, now := 0 }

/-- An ACTIVE mentorship used for state-machine witnesses. -/
def demoMent : Mentorship :=
  { id := 0, mentorId := 10, menteeId := 20, startDate := 0, endDate := none,
    status := .ACTIVE, goals := none, notes := none }

/-- Store holding only `demoMent`. -/
def demoMentStore : Store :=
  { users := [], skills := [], suggestions := [], mentorships := [demoMent],
    messages := [], conversations := [], nextId := 1, now := 7 }

/-- State `demoMentStore` after a successful `cancel`. -/
def demoCanceledStore : Store :=
  { users := [], skills := [], suggestions := [],
    mentorships :=
      [⟨0, 10, 20, 0, some 7, .CANCELED, none, some "no longer available"⟩],
    messages := [], conversations := [], nextId := 1, now := 7 }

/-- Store holding a COMPLETED mentorship. -/
def demoDoneStore : Store :=
  { users := [], skills := [], suggestions := [],
    mentorships := [⟨0, 10, 20, 0, some 3, .COMPLETED, none, none⟩],
    messages := [], conversations := [], nextId := 1, now := 7 }

/-- State `demoMentStore` after appending one message to mentorship 0. -/
def demoAppendedStore : Store :=
  { users := [], skills := [], suggestions := [], mentorships := [demoMent],
    messages := [⟨1, some 0, none, 10, 20, "hello", 7⟩], conversations := [],
    nextId := 2, now := 7 }

/-- A skill catalog with two distinct rows sharing a slug; it satisfies every
constraint the schema declares on `Skill`. -/
def dupSlugSkills : List Skill :=
  [⟨1, "Go", "go"⟩, ⟨2, "Golang", "go"⟩]

/-- Initial store seeded with the duplicate-slug catalog. -/
def dupSlugStore : Store := Store.init [] dupSlugSkills [] 1

theorem pairwise_key_inj {α β : Type} (key : α → β) {l : List α}
    (h : l.Pairwise fun a b => key a ≠ key b)
    {a b : α} (ha : a ∈ l) (hb : b ∈ l) (hk : key a = key b) : a = b := by
  by_contra hne
  exact h.forall (fun x y hxy => Ne.symm hxy) ha hb hne hk

theorem find?_map_update {α : Type} (key : α → Id) (f : α → α) (mid : Id)
    (hf : ∀ x, key (f x) = key x) :
    ∀ l : List α,
      (l.map fun x => if key x == mid then f x else x).find?
          (fun x => key x == mid)
        = (l.find? fun x => key x == mid).map f := by
  intro l
  induction l with
  | nil => rfl
  | cons x xs ih =>
    by_cases hx : key x = mid
    · have hb : (key x == mid) = true := beq_iff_eq.mpr hx
      have hbf : (key (f x) == mid) = true := beq_iff_eq.mpr (by rw [hf, hx])
      simp only [List.map_cons, hb, if_true, List.find?_cons, hbf]
      rfl
    · have hb : (key x == mid) = false := beq_eq_false_iff_ne.mpr hx
      simp only [List.map_cons, hb, Bool.false_eq_true, if_false,
        List.find?_cons, ih]

theorem createSuggestion_ok {st st' : Store} {m e : Id}
    (hop : createSuggestion st m e = .ok st') :
    hasPendingSuggestion st m e = false
      ∧ hasBlockingMentorship st m e = false
      ∧ st' = { st with
          suggestions :=
            { id := st.nextId, mentorId := m, menteeId := e,
              status := .PENDING } :: st.suggestions,
          nextId := st.nextId + 1 } := by
  unfold createSuggestion at hop
  split at hop
  · cases hop
  · rename_i hcond
    rw [Bool.or_eq_true] at hcond
    push_neg at hcond
    refine ⟨?_, ?_, ?_⟩
    · exact Bool.eq_false_iff.mpr hcond.1
    · exact Bool.eq_false_iff.mpr hcond.2
    · exact (Except.ok.injEq _ _ ▸ hop).symm

theorem inv_createSuggestion {st st' : Store} {m e : Id} (inv : Inv st)
    (hop : createSuggestion st m e = .ok st') : Inv st' := by
  obtain ⟨hnp, _hnb, rfl⟩ := createSuggestion_ok hop
  have hnp' : ∀ s ∈ st.suggestions,
      ¬(s.status = .PENDING ∧ s.mentorId = m ∧ s.menteeId = e) := by
    intro s hs hcontra
    have : hasPendingSuggestion st m e = true := by
      unfold hasPendingSuggestion
      rw [List.any_eq_true]
      exact ⟨s, hs, by simp [hcontra.1, hcontra.2.1, hcontra.2.2]⟩
    rw [hnp] at this
    cases this
  constructor
  · intro s hs
    rcases List.mem_cons.mp hs with rfl | hs
    · exact Nat.lt_succ_self _
    · exact Nat.lt_succ_of_lt (inv.suggIdsBelow s hs)
  · refine List.pairwise_cons.mpr ⟨?_, inv.suggIdsNodup⟩
    intro s hs
    exact Nat.ne_of_gt (inv.suggIdsBelow s hs)
  · refine List.pairwise_cons.mpr ⟨?_, inv.pendingUnique⟩
    intro s hs hcontra
    exact hnp' s hs ⟨hcontra.2.1, hcontra.2.2.1.symm, hcontra.2.2.2.symm⟩
  · constructor
    · intro s hs hacc
      rcases List.mem_cons.mp hs with rfl | hs
      · cases hacc
      · exact (inv.matched.1 s hs hacc)
    · intro mm hmm
      obtain ⟨s, hs, hrest⟩ := inv.matched.2 mm hmm
      exact ⟨s, List.mem_cons_of_mem _ hs, hrest⟩
  · exact inv.msgParents
  · exact inv.skillsOk

theorem setStatus_fields (sid : Id) (ns : SuggestionStatus) (t : Suggestion) :
    ((if t.id == sid then { t with status := ns } else t) : Suggestion).id = t.id
      ∧ ((if t.id == sid then { t with status := ns } else t) :
          Suggestion).mentorId = t.mentorId
      ∧ ((if t.id == sid then { t with status := ns } else t) :
          Suggestion).menteeId = t.menteeId := by
  split <;> exact ⟨rfl, rfl, rfl⟩

theorem setStatus_pending_eq {sid : Id} {ns : SuggestionStatus}
    (hns : ns ≠ .PENDING) (t : Suggestion)
    (ht : ((if t.id == sid then { t with status := ns } else t) :
        Suggestion).status = .PENDING) :
    (if t.id == sid then { t with status := ns } else t) = t := by
  by_cases hb : (t.id == sid) = true
  · simp only [hb, if_true] at ht
    exact absurd ht hns
  · simp [hb]

theorem pendingPairUnique_map {l : List Suggestion} (sid : Id)
    (ns : SuggestionStatus) (hns : ns ≠ .PENDING)
    (h : pendingPairUnique l) :
    pendingPairUnique (l.map fun t =>
      if t.id == sid then { t with status := ns } else t) := by
  unfold pendingPairUnique at h ⊢
  refine List.Pairwise.map _ ?_ h
  intro a b hab hcontra
  obtain ⟨h1, h2, h3, h4⟩ := hcontra
  have ea := setStatus_pending_eq hns a h1
  have eb := setStatus_pending_eq hns b h2
  rw [ea] at h1 h3 h4
  rw [eb] at h2 h3 h4
  exact hab ⟨h1, h2, h3, h4⟩

theorem respond_ok {st st' : Store} {sid u : Id} {d : Decision}
    (hop : respond st sid u d = .ok st') :
    ∃ s, st.suggestions.find? (fun t => t.id == sid) = some s
      ∧ s.status = .PENDING
      ∧ (u = s.mentorId ∨ u = s.menteeId)
      ∧ ((d = .Decline ∧ st' = { st with
            suggestions := st.suggestions.map fun t =>
              if t.id == sid then { t with status := .DECLINED } else t })
        ∨ (d = .Accept ∧ st' = { st with
            suggestions := st.suggestions.map fun t =>
              if t.id == sid then { t with status := .ACCEPTED } else t,
            mentorships :=
              { id := st.nextId, mentorId := s.mentorId,
                menteeId := s.menteeId, startDate := st.now, endDate := none,
                status := .PENDING, goals := none, notes := none }
                :: st.mentorships,
            nextId := st.nextId + 1 })) := by
  unfold respond at hop
  split at hop
  · cases hop
  · rename_i s hfind
    split at hop
    · cases hop
    · rename_i hauth
      split at hop
      · cases hop
      · rename_i hpend
        refine ⟨s, hfind, not_not.mp hpend, ?_, ?_⟩
        · by_cases hm : u = s.mentorId
          · exact Or.inl hm
          · push_neg at hauth
            exact Or.inr (hauth hm)
        · cases d with
          | Decline =>
            exact Or.inl ⟨rfl, ((Except.ok.injEq _ _ ▸ hop).symm)⟩
          | Accept =>
            exact Or.inr ⟨rfl, ((Except.ok.injEq _ _ ▸ hop).symm)⟩

theorem inv_respond {st st' : Store} {sid u : Id} {d : Decision} (inv : Inv st)
    (hop : respond st sid u d = .ok st') : Inv st' := by
  obtain ⟨s, hfind, hpend, _hauth, hcase⟩ := respond_ok hop
  have hsmem : s ∈ st.suggestions := List.mem_of_find?_eq_some hfind
  have hsid : s.id = sid := by
    have h := List.find?_some hfind
    simpa using h
  have hinj : ∀ {a b : Suggestion}, a ∈ st.suggestions → b ∈ st.suggestions →
      a.id = b.id → a = b :=
    fun ha hb hk =>
      pairwise_key_inj (fun t : Suggestion => t.id) inv.suggIdsNodup ha hb hk
  -- any suggestion in the table not equal to `s` keeps a different id
  have hother : ∀ t ∈ st.suggestions, t.status = .ACCEPTED →
      (t.id == sid) = false := by
    intro t ht hacc
    apply beq_eq_false_iff_ne.mpr
    intro hid
    have : t = s := hinj ht hsmem (by rw [hid, hsid])
    rw [this] at hacc
    rw [hacc] at hpend
    cases hpend
  rcases hcase with ⟨_hd, rfl⟩ | ⟨_hd, rfl⟩
  · -- Decline
    constructor
    · intro x hx
      obtain ⟨y, hy, rfl⟩ := List.mem_map.mp hx
      rw [(setStatus_fields sid .DECLINED y).1]
      exact inv.suggIdsBelow y hy
    · exact List.Pairwise.map _
        (fun a b hab => by
          rw [(setStatus_fields sid .DECLINED a).1,
            (setStatus_fields sid .DECLINED b).1]
          exact hab) inv.suggIdsNodup
    · exact pendingPairUnique_map sid .DECLINED (by intro h; cases h)
        inv.pendingUnique
    · constructor
      · intro x hx hacc
        obtain ⟨y, hy, rfl⟩ := List.mem_map.mp hx
        by_cases hb : (y.id == sid) = true
        · simp only [hb, if_true] at hacc
          cases hacc
        · simp only [hb, if_false] at hacc ⊢
          simpa using inv.matched.1 y hy hacc
      · intro m hm
        obtain ⟨s₀, hs₀, hacc₀, hpair₀⟩ := inv.matched.2 m hm
        refine ⟨s₀, List.mem_map.mpr ⟨s₀, hs₀, ?_⟩, hacc₀, hpair₀⟩
        simp [hother s₀ hs₀ hacc₀]
    · exact inv.msgParents
    · exact inv.skillsOk
  · -- Accept
    constructor
    · intro x hx
      obtain ⟨y, hy, rfl⟩ := List.mem_map.mp hx
      rw [(setStatus_fields sid .ACCEPTED y).1]
      exact Nat.lt_succ_of_lt (inv.suggIdsBelow y hy)
    · exact List.Pairwise.map _
        (fun a b hab => by
          rw [(setStatus_fields sid .ACCEPTED a).1,
            (setStatus_fields sid .ACCEPTED b).1]
          exact hab) inv.suggIdsNodup
    · exact pendingPairUnique_map sid .ACCEPTED (by intro h; cases h)
        inv.pendingUnique
    · constructor
      · intro x hx hacc
        obtain ⟨y, hy, rfl⟩ := List.mem_map.mp hx
        by_cases hb : (y.id == sid) = true
        · have hy_eq : y = s := hinj hy hsmem (by rw [beq_iff_eq.mp hb, hsid])
          subst hy_eq
          refine ⟨_, List.mem_cons_self _ _, ?_⟩
          simp [hb]
        · simp only [hb, if_false] at hacc ⊢
          obtain ⟨m, hm, hpair⟩ := inv.matched.1 y hy hacc
          exact ⟨m, List.mem_cons_of_mem _ hm, hpair⟩
      · intro m hm
        rcases List.mem_cons.mp hm with rfl | hm
        · refine ⟨_, List.mem_map.mpr ⟨s, hsmem, rfl⟩, ?_⟩
          have hb : (s.id == sid) = true := beq_iff_eq.mpr hsid
          simp [hb]
        · obtain ⟨s₀, hs₀, hacc₀, hpair₀⟩ := inv.matched.2 m hm
          refine ⟨s₀, List.mem_map.mpr ⟨s₀, hs₀, ?_⟩, hacc₀, hpair₀⟩
          simp [hother s₀ hs₀ hacc₀]
    · exact inv.msgParents
    · exact inv.skillsOk

theorem activate_ok {st st' : Store} {mid : Id}
    (hop : activate st mid = .ok st') :
    ∃ m, st.mentorships.find? (fun x => x.id == mid) = some m
      ∧ m.status = .PENDING
      ∧ st' = updateMentorship st mid fun x => { x with status := .ACTIVE } := by
  unfold activate at hop
  split at hop
  · cases hop
  · rename_i m hfind
    split at hop
    · rename_i hstat
      exact ⟨m, hfind, hstat, (Except.ok.injEq _ _ ▸ hop).symm⟩
    · cases hop

theorem complete_ok {st st' : Store} {mid : Id} {notes : Option String}
    (hop : complete st mid notes = .ok st') :
    ∃ m, st.mentorships.find? (fun x => x.id == mid) = some m
      ∧ m.status = .ACTIVE
      ∧ st' = updateMentorship st mid fun x =>
          { x with status := .COMPLETED, endDate := some st.now,
                   notes := notes } := by
  unfold complete at hop
  split at hop
  · cases hop
  · rename_i m hfind
    split at hop
    · rename_i hstat
      exact ⟨m, hfind, hstat, (Except.ok.injEq _ _ ▸ hop).symm⟩
    · cases hop

theorem cancel_ok {st st' : Store} {mid : Id} {reason : Option String}
    (hop : cancel st mid reason = .ok st') :
    ∃ m, st.mentorships.find? (fun x => x.id == mid) = some m
      ∧ (m.status = .PENDING ∨ m.status = .ACTIVE)
      ∧ st' = updateMentorship st mid fun x =>
          { x with status := .CANCELED, endDate := some st.now,
                   notes := reason } := by
  unfold cancel at hop
  split at hop
  · cases hop
  · rename_i m hfind
    split at hop
    · rename_i hstat
      exact ⟨m, hfind, hstat, (Except.ok.injEq _ _ ▸ hop).symm⟩
    · cases hop

theorem appendMessage_ok {st st' : Store} {mid s r : Id} {content : String}
    (hop : appendMessage st mid s r content = .ok st') :
    ∃ m, st.mentorships.find? (fun x => x.id == mid) = some m
      ∧ (m.status = .PENDING ∨ m.status = .ACTIVE)
      ∧ st' = { st with
          messages :=
            { id := st.nextId, mentorshipId := some mid,
              conversationId := none, senderId := s, receiverId := r,
              content := content, sentAt := st.now } :: st.messages,
          nextId := st.nextId + 1 } := by
  unfold appendMessage at hop
  split at hop
  · cases hop
  · rename_i m hfind
    split at hop
    · rename_i hstat
      exact ⟨m, hfind, hstat, (Except.ok.injEq _ _ ▸ hop).symm⟩
    · cases hop

theorem inv_updateMentorship {st : Store} {mid : Id} {f : Mentorship → Mentorship}
    (inv : Inv st)
    (hf : ∀ x : Mentorship, (f x).mentorId = x.mentorId
      ∧ (f x).menteeId = x.menteeId) :
    Inv (updateMentorship st mid f) := by
  have hg : ∀ x : Mentorship,
      ((if x.id == mid then f x else x) : Mentorship).mentorId = x.mentorId
        ∧ ((if x.id == mid then f x else x) : Mentorship).menteeId
            = x.menteeId := by
    intro x
    split
    · exact hf x
    · exact ⟨rfl, rfl⟩
  constructor
  · exact inv.suggIdsBelow
  · exact inv.suggIdsNodup
  · exact inv.pendingUnique
  · constructor
    · intro s hs hacc
      obtain ⟨m, hm, hpair⟩ := inv.matched.1 s hs hacc
      refine ⟨(if m.id == mid then f m else m),
        List.mem_map.mpr ⟨m, hm, rfl⟩, ?_⟩
      rw [(hg m).1, (hg m).2]
      exact hpair
    · intro x hx
      obtain ⟨m, hm, rfl⟩ := List.mem_map.mp hx
      obtain ⟨s, hs, hacc, hpair⟩ := inv.matched.2 m hm
      refine ⟨s, hs, hacc, ?_⟩
      rw [(hg m).1, (hg m).2]
      exact hpair
  · exact inv.msgParents
  · exact inv.skillsOk

theorem inv_activate {st st' : Store} {mid : Id} (inv : Inv st)
    (hop : activate st mid = .ok st') : Inv st' := by
  obtain ⟨m, _, _, rfl⟩ := activate_ok hop
  exact inv_updateMentorship inv fun x => ⟨rfl, rfl⟩

theorem inv_complete {st st' : Store} {mid : Id} {notes : Option String}
    (inv : Inv st) (hop : complete st mid notes = .ok st') : Inv st' := by
  obtain ⟨m, _, _, rfl⟩ := complete_ok hop
  exact inv_updateMentorship inv fun x => ⟨rfl, rfl⟩

theorem inv_cancel {st st' : Store} {mid : Id} {reason : Option String}
    (inv : Inv st) (hop : cancel st mid reason = .ok st') : Inv st' := by
  obtain ⟨m, _, _, rfl⟩ := cancel_ok hop
  exact inv_updateMentorship inv fun x => ⟨rfl, rfl⟩

theorem inv_appendMessage {st st' : Store} {mid s r : Id} {content : String}
    (inv : Inv st) (hop : appendMessage st mid s r content = .ok st') :
    Inv st' := by
  obtain ⟨m, _, _, rfl⟩ := appendMessage_ok hop
  constructor
  · intro x hx
    exact Nat.lt_succ_of_lt (inv.suggIdsBelow x hx)
  · exact inv.suggIdsNodup
  · exact inv.pendingUnique
  · exact inv.matched
  · intro msg hmsg
    rcases List.mem_cons.mp hmsg with rfl | hmsg
    · exact Or.inl ⟨by simp, rfl⟩
    · exact inv.msgParents msg hmsg
  · exact inv.skillsOk

theorem inv_tick {st : Store} (t : Nat) (inv : Inv st) :
    Inv { st with now := t } :=
  ⟨inv.suggIdsBelow, inv.suggIdsNodup, inv.pendingUnique, inv.matched,
    inv.msgParents, inv.skillsOk⟩

theorem inv_createFold {f : User × ℚ → Id × Id} :
    ∀ (l : List (User × ℚ)) (st : Store), Inv st →
      Inv (l.foldl (fun acc c =>
        match createSuggestion acc (f c).1 (f c).2 with
        | .ok st' => st'
        | .error _ => acc) st) := by
  intro l
  induction l with
  | nil => intro st inv; exact inv
  | cons c cs ih =>
    intro st inv
    simp only [List.foldl_cons]
    apply ih
    rcases hop : createSuggestion st (f c).1 (f c).2 with e | st2
    · simp only [hop]
      exact inv
    · simp only [hop]
      exact inv_createSuggestion inv hop

theorem inv_generate {cfg : ScoringConfig} {st : Store} {seeker : User}
    {role : Role} (inv : Inv st) :
    Inv (generateSuggestionsForUser cfg st seeker role) := by
  unfold generateSuggestionsForUser
  exact inv_createFold _ _ inv

theorem inv_init (users : List User) (skills : List Skill)
    (conversations : List Conversation) (now : Nat)
    (hskills : skillTableOk skills) :
    Inv (Store.init users skills conversations now) := by
  refine ⟨?_, ?_, ?_, ⟨?_, ?_⟩, ?_, ?_⟩
  · intro s hs; cases hs
  · exact List.Pairwise.nil
  · exact List.Pairwise.nil
  · intro s hs; cases hs
  · intro m hm; cases hm
  · intro msg hmsg; cases hmsg
  · exact hskills

theorem reachable_inv {cfg : ScoringConfig} {st : Store}
    (h : Reachable cfg st) : Inv st := by
  induction h with
  | init users skills conversations now hskills =>
    exact inv_init users skills conversations now hskills
  | createSuggestion h hop ih => exact inv_createSuggestion ih hop
  | respond h hop ih => exact inv_respond ih hop
  | activate h hop ih => exact inv_activate ih hop
  | complete h hop ih => exact inv_complete ih hop
  | cancel h hop ih => exact inv_cancel ih hop
  | appendMessage h hop ih => exact inv_appendMessage ih hop
  | generate h ih => exact inv_generate ih
  | tick t h ih => exact inv_tick t ih

theorem reachable_demoStore1 : Reachable demoCfg demoStore1 :=
  Reachable.createSuggestion (@Reachable.init demoCfg [] [] [] 5 List.Pairwise.nil)
    (show createSuggestion demoStore0 10 20 = .ok demoStore1 from rfl)

theorem reachable_demoStore2 : Reachable demoCfg demoStore2 :=
  Reachable.respond reachable_demoStore1
    (show respond demoStore1 0 10 .Accept = .ok demoStore2 from rfl)

theorem reachable_demoStore3 : Reachable demoCfg demoStore3 :=
  Reachable.appendMessage reachable_demoStore2
    (show appendMessage demoStore2 1 10 20 "hi" = .ok demoStore3 from rfl)

theorem skillTableOk_dupSlugSkills : skillTableOk dupSlugSkills := by
  unfold skillTableOk dupSlugSkills
  refine List.pairwise_cons.mpr ⟨?_, List.pairwise_cons.mpr ⟨?_, List.Pairwise.nil⟩⟩
  · intro b hb
    rw [List.mem_singleton.mp hb]
    decide
  · intro b hb
    cases hb

theorem reachable_dupSlugStore : Reachable demoCfg dupSlugStore :=
  @Reachable.init demoCfg [] dupSlugSkills [] 1 skillTableOk_dupSlugSkills

/-- C1: in every reachable state of the store, at most one PENDING suggestion
exists for any ordered `(mentorId, menteeId)` pair; reachability is closed
under every operation of the suggestion lifecycle manager (and the other core
operations), so each of them preserves the invariant. -/
theorem pending_pair_unique_invariant {cfg : ScoringConfig} {st : Store}
    (h : Reachable cfg st) : pendingPairUnique st.suggestions :=
  (reachable_inv h).pendingUnique

/-- C1 witness: the invariant at the concrete reachable store holding one
pending suggestion. -/
theorem pending_pair_unique_invariant_witness :
    pendingPairUnique demoStore1.suggestions :=
  pending_pair_unique_invariant reachable_demoStore1

/-- C2: responding Accept to a PENDING suggestion returns, in one step, the
state in which the suggestion is ACCEPTED and exactly one new mentorship —
status PENDING, startDate = now, same mentor and mentee — has been prepended;
and in every reachable state ACCEPTED suggestions and mentorships exist only
matched to one another. -/
theorem respond_accept_atomic (cfg : ScoringConfig) {st : Store} {sid u : Id}
    {s : Suggestion}
    (hfind : st.suggestions.find? (fun t => t.id == sid) = some s)
    (hpend : s.status = .PENDING)
    (hauth : u = s.mentorId ∨ u = s.menteeId) :
    respond st sid u .Accept = .ok { st with
        suggestions := st.suggestions.map fun t =>
          if t.id == sid then { t with status := .ACCEPTED } else t,
        mentorships :=
          { id := st.nextId, mentorId := s.mentorId, menteeId := s.menteeId,
            startDate := st.now, endDate := none, status := .PENDING,
            goals := none, notes := none } :: st.mentorships,
        nextId := st.nextId + 1 }
    ∧ (st.suggestions.map fun t =>
          if t.id == sid then { t with status := .ACCEPTED } else t).find?
        (fun t => t.id == sid) = some { s with status := .ACCEPTED }
    ∧ (∀ st₂, Reachable cfg st₂ → suggestionMentorshipMatched st₂) := by
  refine ⟨?_, ?_, fun st₂ h => (reachable_inv h).matched⟩
  · unfold respond
    rw [hfind]
    have h1 : ¬(u ≠ s.mentorId ∧ u ≠ s.menteeId) := by
      rcases hauth with h | h
      · intro hc; exact hc.1 h
      · intro hc; exact hc.2 h
    have h2 : ¬(s.status ≠ .PENDING) := not_not.mpr hpend
    simp [h1, h2]
  · rw [find?_map_update (fun t : Suggestion => t.id)
        (fun t => { t with status := .ACCEPTED }) sid (fun t => rfl)
        st.suggestions,
      hfind]
    rfl

/-- C2 witness: accepting the concrete pending suggestion of `demoStore1`. -/
theorem respond_accept_atomic_witness :
    respond demoStore1 0 10 .Accept = .ok { demoStore1 with
        suggestions := demoStore1.suggestions.map fun t =>
          if t.id == 0 then { t with status := .ACCEPTED } else t,
        mentorships :=
          { id := demoStore1.nextId, mentorId := 10, menteeId := 20,
            startDate := demoStore1.now, endDate := none, status := .PENDING,
            goals := none, notes := none } :: demoStore1.mentorships,
        nextId := demoStore1.nextId + 1 }
    ∧ (demoStore1.suggestions.map fun t =>
          if t.id == 0 then { t with status := .ACCEPTED } else t).find?
        (fun t => t.id == 0)
        = some { id := 0, mentorId := 10, menteeId := 20, status := .ACCEPTED }
    ∧ suggestionMentorshipMatched demoStore2 := by
  have h := respond_accept_atomic demoCfg
    (show demoStore1.suggestions.find? (fun t => t.id == 0)
        = some ⟨0, 10, 20, .PENDING⟩ from rfl)
    rfl (Or.inl rfl)
  exact ⟨h.1, h.2.1, h.2.2 demoStore2 reachable_demoStore2⟩

/-- C9: in every reachable state, every message belongs to exactly one of a
mentorship or a conversation — exactly one of its two parent references is
non-null. -/
theorem message_exactly_one_parent {cfg : ScoringConfig} {st : Store}
    (h : Reachable cfg st) : ∀ msg ∈ st.messages, exactlyOneParent msg :=
  (reachable_inv h).msgParents

/-- C9 witness: the message created in the concrete reachable store
`demoStore3` has exactly one parent. -/
theorem message_exactly_one_parent_witness :
    exactlyOneParent ⟨2, some 1, none, 10, 20, "hi", 5⟩ :=
  message_exactly_one_parent reachable_demoStore3 _ (by simp [demoStore3])

/-- C5: `createSuggestion` fails with ConflictError exactly when a PENDING
suggestion or an ACTIVE/PENDING mentorship already exists for the ordered
pair (and succeeds otherwise); calling it twice in a row for a pair with no
prior rows makes the second call fail with ConflictError and leaves exactly
one suggestion row for the pair. -/
theorem createSuggestion_conflict_characterisation (st : Store) (m e : Id) :
    (createSuggestion st m e = .error .ConflictError
        ↔ hasPendingSuggestion st m e = true
            ∨ hasBlockingMentorship st m e = true)
    ∧ (¬(hasPendingSuggestion st m e = true
          ∨ hasBlockingMentorship st m e = true) →
        ∃ st', createSuggestion st m e = .ok st')
    ∧ (∀ st', pairRowCount st m e = 0 → createSuggestion st m e = .ok st' →
        createSuggestion st' m e = .error .ConflictError
          ∧ pairRowCount st' m e = 1) := by
  refine ⟨⟨?_, ?_⟩, ?_, ?_⟩
  · intro herr
    unfold createSuggestion at herr
    split at herr
    · rename_i hc
      rw [Bool.or_eq_true] at hc
      exact hc
    · cases herr
  · intro hor
    unfold createSuggestion
    rw [if_pos (Bool.or_eq_true _ _ ▸ hor)]
  · intro hor
    unfold createSuggestion
    rw [if_neg]
    · exact ⟨_, rfl⟩
    · rw [Bool.or_eq_true]
      exact hor
  · intro st' hcount hop
    obtain ⟨_, _, rfl⟩ := createSuggestion_ok hop
    constructor
    · unfold createSuggestion
      rw [if_pos]
      rw [Bool.or_eq_true]
      refine Or.inl ?_
      unfold hasPendingSuggestion
      rw [List.any_eq_true]
      exact ⟨_, List.mem_cons_self _ _, by simp⟩
    · unfold pairRowCount at hcount ⊢
      rw [List.filter_cons_of_pos (by simp)]
      simp only [List.length_cons]
      omega

/-- C5 witness: the characterisation and the double-call scenario at the
concrete empty store. -/
theorem createSuggestion_conflict_characterisation_witness :
    (createSuggestion demoStore0 10 20 = .error .ConflictError
        ↔ hasPendingSuggestion demoStore0 10 20 = true
            ∨ hasBlockingMentorship demoStore0 10 20 = true)
    ∧ (createSuggestion demoStore1 10 20 = .error .ConflictError
        ∧ pairRowCount demoStore1 10 20 = 1) :=
  ⟨(createSuggestion_conflict_characterisation demoStore0 10 20).1,
   (createSuggestion_conflict_characterisation demoStore0 10 20).2.2
     demoStore1 rfl rfl⟩

/-- C6: `activate`, `complete` and `cancel` validate the current status
before transitioning (PENDING to ACTIVE, ACTIVE to COMPLETED, PENDING or
ACTIVE to CANCELED); an invalid transition fails with InvalidStateError and
produces no new state; successful `complete`/`cancel` set `endDate = now`;
after a successful `cancel` of an ACTIVE mentorship, a subsequent `complete`
fails with InvalidStateError. -/
theorem mentorship_state_machine_guards :
    (∀ (st : Store) (mid : Id) (m : Mentorship),
        st.mentorships.find? (fun x => x.id == mid) = some m →
        (m.status = .PENDING →
          activate st mid = .ok (updateMentorship st mid fun x =>
            { x with status := .ACTIVE }))
        ∧ (m.status ≠ .PENDING →
            activate st mid = .error .InvalidStateError))
    ∧ (∀ (st : Store) (mid : Id) (m : Mentorship) (notes : Option String),
        st.mentorships.find? (fun x => x.id == mid) = some m →
        (m.status = .ACTIVE →
          complete st mid notes = .ok (updateMentorship st mid fun x =>
            { x with status := .COMPLETED, endDate := some st.now,
                     notes := notes }))
        ∧ (m.status ≠ .ACTIVE →
            complete st mid notes = .error .InvalidStateError))
    ∧ (∀ (st : Store) (mid : Id) (m : Mentorship) (reason : Option String),
        st.mentorships.find? (fun x => x.id == mid) = some m →
        (m.status = .PENDING ∨ m.status = .ACTIVE →
          cancel st mid reason = .ok (updateMentorship st mid fun x =>
            { x with status := .CANCELED, endDate := some st.now,
                     notes := reason }))
        ∧ (m.status ≠ .PENDING ∧ m.status ≠ .ACTIVE →
            cancel st mid reason = .error .InvalidStateError))
    ∧ (∀ (st st' : Store) (mid : Id) (m : Mentorship)
          (reason notes : Option String),
        st.mentorships.find? (fun x => x.id == mid) = some m →
        m.status = .ACTIVE →
        cancel st mid reason = .ok st' →
        st'.mentorships.find? (fun x => x.id == mid)
            = some { m with status := .CANCELED, endDate := some st.now,
                            notes := reason }
          ∧ complete st' mid notes = .error .InvalidStateError) := by
  refine ⟨?_, ?_, ?_, ?_⟩
  · intro st mid m hfind
    constructor
    · intro hstat
      unfold activate
      rw [hfind]
      simp [hstat]
    · intro hstat
      unfold activate
      rw [hfind]
      simp [hstat]
  · intro st mid m notes hfind
    constructor
    · intro hstat
      unfold complete
      rw [hfind]
      simp [hstat]
    · intro hstat
      unfold complete
      rw [hfind]
      simp [hstat]
  · intro st mid m reason hfind
    constructor
    · intro hstat
      unfold cancel
      rw [hfind]
      rcases hstat with h | h <;> simp [h]
    · intro hstat
      unfold cancel
      rw [hfind]
      simp [hstat.1, hstat.2]
  · intro st st' mid m reason notes hfind hstat hop
    obtain ⟨m', hfind', _, rfl⟩ := cancel_ok hop
    have hm : m' = m := by
      rw [hfind] at hfind'
      exact (Option.some.injEq _ _ ▸ hfind').symm
    subst hm
    have hupd : (updateMentorship st mid fun x =>
        { x with status := .CANCELED, endDate := some st.now,
                 notes := reason }).mentorships.find? (fun x => x.id == mid)
        = some { m' with status := .CANCELED, endDate := some st.now,
                         notes := reason } := by
      unfold updateMentorship
      rw [find?_map_update (fun x : Mentorship => x.id)
          (fun x => { x with status := .CANCELED, endDate := some st.now,
                             notes := reason }) mid (fun x => rfl)
          st.mentorships,
        hfind']
      rfl
    refine ⟨hupd, ?_⟩
    unfold complete
    rw [hupd]
    simp

/-- C6 witness: the concrete ACTIVE mentorship — activate is refused,
complete and cancel succeed setting endDate, and complete after cancel is
refused. -/
theorem mentorship_state_machine_guards_witness :
    activate demoMentStore 0 = .error .InvalidStateError
    ∧ complete demoMentStore 0 none
        = .ok (updateMentorship demoMentStore 0 fun x =>
            { x with status := .COMPLETED, endDate := some demoMentStore.now,
                     notes := none })
    ∧ cancel demoMentStore 0 (some "no longer available")
        = .ok (updateMentorship demoMentStore 0 fun x =>
            { x with status := .CANCELED, endDate := some demoMentStore.now,
                     notes := some "no longer available" })
    ∧ demoCanceledStore.mentorships.find? (fun x => x.id == 0)
        = some { demoMent with
            status := .CANCELED,
            endDate := some demoMentStore.now,
            notes := some "no longer available" }
    ∧ complete demoCanceledStore 0 none = .error .InvalidStateError := by
  have h := mentorship_state_machine_guards
  have hsc := h.2.2.2 demoMentStore demoCanceledStore 0 demoMent
    (some "no longer available") none rfl rfl rfl
  exact ⟨(h.1 demoMentStore 0 demoMent rfl).2 (by decide),
    (h.2.1 demoMentStore 0 demoMent none rfl).1 rfl,
    (h.2.2.1 demoMentStore 0 demoMent (some "no longer available") rfl).1
      (Or.inr rfl),
    hsc.1, hsc.2⟩

/-- C7: a message can be appended to a mentorship only while its status is
PENDING or ACTIVE — appending to a COMPLETED or CANCELED mentorship fails
with InvalidStateError (producing no state, so the message count is
unchanged), while a successful append increments the mentorship's message
count by exactly one. -/
theorem appendMessage_requires_live :
    (∀ (st : Store) (mid s r : Id) (content : String) (m : Mentorship),
        st.mentorships.find? (fun x => x.id == mid) = some m →
        m.status = .COMPLETED ∨ m.status = .CANCELED →
        appendMessage st mid s r content = .error .InvalidStateError)
    ∧ (∀ (st st' : Store) (mid s r : Id) (content : String) (m : Mentorship),
        st.mentorships.find? (fun x => x.id == mid) = some m →
        appendMessage st mid s r content = .ok st' →
        (m.status = .PENDING ∨ m.status = .ACTIVE)
          ∧ messageCount st' mid = messageCount st mid + 1) := by
  constructor
  · intro st mid s r content m hfind hstat
    unfold appendMessage
    rw [hfind]
    rcases hstat with h | h <;> simp [h]
  · intro st st' mid s r content m hfind hop
    obtain ⟨m', hfind', hstat', rfl⟩ := appendMessage_ok hop
    have hm : m' = m := by
      rw [hfind] at hfind'
      exact (Option.some.injEq _ _ ▸ hfind').symm
    subst hm
    refine ⟨hstat', ?_⟩
    unfold messageCount
    rw [List.filter_cons_of_pos (by simp)]
    simp

/-- C7 witness: appending to the concrete COMPLETED mentorship fails with
InvalidStateError; appending to the concrete ACTIVE one adds exactly one
message. -/
theorem appendMessage_requires_live_witness :
    appendMessage demoDoneStore 0 10 20 "late" = .error .InvalidStateError
    ∧ ((demoMent.status = .PENDING ∨ demoMent.status = .ACTIVE)
        ∧ messageCount demoAppendedStore 0 = messageCount demoMentStore 0 + 1) :=
  ⟨appendMessage_requires_live.1 demoDoneStore 0 10 20 "late"
      ⟨0, 10, 20, 0, some 3, .COMPLETED, none, none⟩ rfl (Or.inl rfl),
   appendMessage_requires_live.2 demoMentStore demoAppendedStore 0 10 20
      "hello" demoMent rfl rfl⟩

/-- C3: every candidate returned by `scoreCandidates` shares at least one
skill with the seeker — the seeker's desired skills and the candidate's
offered skills intersect; zero-overlap users never appear in the result. -/
theorem scoreCandidates_no_zero_overlap {cfg : ScoringConfig} {st : Store}
    {seeker : User} {role : Role} {c : User} {sc : ℚ}
    (h : (c, sc) ∈ scoreCandidates cfg st seeker role) :
    ∃ k, k ∈ desiredSkills seeker role ∧ k ∈ offeredSkills c role := by
  unfold scoreCandidates at h
  rw [List.mem_mergeSort] at h
  obtain ⟨u, hu, heq⟩ := List.mem_map.mp h
  have hc : u = c := congrArg Prod.fst heq
  subst hc
  rw [List.mem_filter] at hu
  have hpred := hu.2
  simp only [Bool.and_eq_true] at hpred
  have hov : skillOverlapCount (desiredSkills seeker role)
      (offeredSkills u role) ≠ 0 := by
    simpa using hpred.2
  unfold skillOverlapCount at hov
  have hne : (desiredSkills seeker role).dedup.filter
      (fun k => (offeredSkills u role).contains k) ≠ [] := by
    intro hnil
    rw [hnil] at hov
    exact hov rfl
  obtain ⟨k, hk⟩ := List.exists_mem_of_ne_nil _ hne
  have hk' := List.mem_filter.mp hk
  exact ⟨k, List.mem_dedup.mp hk'.1, by simpa using hk'.2⟩

/-- C3 witness: the concrete mentor offering skill 100 is returned for the
seeker desiring skill 100, and indeed shares a skill with them. -/
theorem scoreCandidates_no_zero_overlap_witness :
    ∃ k, k ∈ desiredSkills demoSeeker .Mentee
      ∧ k ∈ offeredSkills demoMentor .Mentee :=
  scoreCandidates_no_zero_overlap
    (show (demoMentor, candidateScore demoCfg demoSeeker demoMentor .Mentee)
        ∈ scoreCandidates demoCfg demoMatchStore demoSeeker .Mentee by
      unfold scoreCandidates
      rw [List.mem_mergeSort]
      simp [demoMatchStore, demoMentor, demoSeeker, hasBlockingMentorship,
        skillOverlapCount, desiredSkills, offeredSkills, pairKey])

/-- C4: `scoreCandidates` is deterministic — for fixed data any two results
of the same call coincide — and its output is ordered descending by score
with ties broken by candidate id ascending. -/
theorem scoreCandidates_deterministic_sorted (cfg : ScoringConfig)
    (st : Store) (seeker : User) (role : Role) :
    (∀ l₁ l₂, l₁ = scoreCandidates cfg st seeker role →
        l₂ = scoreCandidates cfg st seeker role → l₁ = l₂)
    ∧ (scoreCandidates cfg st seeker role).Pairwise scoredOrder := by
  constructor
  · intro l₁ l₂ h1 h2
    rw [h1, h2]
  · have htrans : ∀ a b c : User × ℚ,
        scoreLE a b = true → scoreLE b c = true → scoreLE a c = true := by
      intro a b c hab hbc
      simp only [scoreLE, decide_eq_true_eq] at hab hbc ⊢
      rcases hab with h1 | ⟨h1, h1'⟩ <;> rcases hbc with h2 | ⟨h2, h2'⟩
      · exact Or.inl (lt_trans h2 h1)
      · exact Or.inl (h2 ▸ h1)
      · exact Or.inl (h1 ▸ h2)
      · exact Or.inr ⟨h1.trans h2, le_trans h1' h2'⟩
    have htotal : ∀ a b : User × ℚ,
        (scoreLE a b || scoreLE b a) = true := by
      intro a b
      simp only [scoreLE, Bool.or_eq_true, decide_eq_true_eq]
      rcases lt_trichotomy a.2 b.2 with h | h | h
      · exact Or.inr (Or.inl h)
      · rcases Nat.le_total a.1.id b.1.id with hle | hle
        · exact Or.inl (Or.inr ⟨h, hle⟩)
        · exact Or.inr (Or.inr ⟨h.symm, hle⟩)
      · exact Or.inl (Or.inl h)
    unfold scoreCandidates
    refine List.Pairwise.imp ?_
      (List.sorted_mergeSort htrans htotal _)
    intro a b hab
    simpa [scoreLE, decide_eq_true_eq, scoredOrder] using hab

/-- C4 witness: determinism and ordering of the concrete call on
`demoMatchStore`. -/
theorem scoreCandidates_deterministic_sorted_witness :
    scoreCandidates demoCfg demoMatchStore demoSeeker .Mentee
        = scoreCandidates demoCfg demoMatchStore demoSeeker .Mentee
    ∧ (scoreCandidates demoCfg demoMatchStore demoSeeker .Mentee).Pairwise
        scoredOrder :=
  ⟨(scoreCandidates_deterministic_sorted demoCfg demoMatchStore demoSeeker
      .Mentee).1 _ _ rfl rfl,
   (scoreCandidates_deterministic_sorted demoCfg demoMatchStore demoSeeker
      .Mentee).2⟩

/-- C8 counterexample: a reachable state whose skill catalog satisfies every
schema-declared constraint yet holds two distinct skills with the same slug —
the schema declares no uniqueness on `slug`, so the claim as stated is
false. -/
theorem slug_unique_counterexample :
    Reachable demoCfg dupSlugStore ∧ ¬ slugUnique dupSlugStore.skills := by
  refine ⟨reachable_dupSlugStore, ?_⟩
  intro hcontra
  have h : (dupSlugStore.skills).Pairwise fun a b => a.slug ≠ b.slug :=
    hcontra
  exact (List.pairwise_cons.mp h).1 ⟨2, "Golang", "go"⟩
    (by simp [dupSlugStore, Store.init, dupSlugSkills]) rfl

/-- C8 amended: `slug` is not a unique key — the schema-enforced unique key
of `Skill` is `id`: in every reachable state two skill records with the same
id are the same record, while two distinct records may share a slug. -/
theorem skill_id_unique_amended {cfg : ScoringConfig} {st : Store}
    (h : Reachable cfg st) {a b : Skill}
    (ha : a ∈ st.skills) (hb : b ∈ st.skills) (hid : a.id = b.id) :
    a = b ∧ ∃ skills, skillTableOk skills ∧ ¬ slugUnique skills := by
  refine ⟨pairwise_key_inj (fun sk : Skill => sk.id)
    (reachable_inv h).skillsOk ha hb hid, dupSlugSkills,
    skillTableOk_dupSlugSkills, ?_⟩
  intro hcontra
  exact (List.pairwise_cons.mp hcontra).1 ⟨2, "Golang", "go"⟩
    (by simp [dupSlugSkills]) rfl

/-- C8 amended witness: applied at the concrete duplicate-slug catalog. -/
theorem skill_id_unique_amended_witness :
    (⟨1, "Go", "go"⟩ : Skill) = ⟨1, "Go", "go"⟩
    ∧ ∃ skills, skillTableOk skills ∧ ¬ slugUnique skills :=
  skill_id_unique_amended reachable_dupSlugStore
    (by simp [dupSlugStore, Store.init, dupSlugSkills])
    (by simp [dupSlugStore, Store.init, dupSlugSkills]) rfl

/-- C10: the skill router's `getSkills` returns the full skill table,
unfiltered and unmodified, and mutates nothing — the store after the call is
the store before it. -/
theorem getSkills_returns_all (st : Store) :
    (getSkills st).1 = st.skills ∧ (getSkills st).2 = st :=
  ⟨rfl, rfl⟩

end MentorshipApp
